import Mathlib

/-!
Formal model of the frame-to-event-to-commentary pipeline of the
Advanced_Valo repository.  Each definition is a shallow embedding of a
function of the Python sources:

* `Video.*`     — `video_commentary_generator.py` (`VideoCommentaryGenerator`)
* `Enhanced.*`  — `enhanced_gameplay_commentator.py` (`GameplayAnalyzer`,
                  `EnhancedGameplayCommentator`)
* `Voice.*`     — `voice_commentary_generator.py` (`VoiceCommentaryGenerator`)
* `Advanced.*`  — `advanced_video_commentary.py`
                  (`AdvancedVideoCommentaryGenerator`)

Python floats (timestamps, confidences, intervals) are modelled as `ℚ`;
Python strings used for containment tests are modelled as `List Char` so
that the `in` (substring) operator has an executable counterpart.
English template texts chosen by `random.choice` and the external
text-to-speech / commentator backends do not influence any verified
property; they are abstracted as explicit function parameters
(`choose`, `gen`, `synth`), mirroring an injected random source or
external adapter.
-/

/-- Characters of a string literal, the `List Char` view of Python text. -/
def cs (s : String) : List Char := s.toList

/-- Python `str.lower`. -/
def pyLower (s : List Char) : List Char := s.map Char.toLower

/-- Python `str.upper`. -/
def pyUpper (s : List Char) : List Char := s.map Char.toUpper

/-- Python `str.strip`: drop whitespace at both ends. -/
def pyStrip (s : List Char) : List Char :=
  ((s.dropWhile Char.isWhitespace).reverse.dropWhile Char.isWhitespace).reverse

/-- Does `hay` start with `needle`? Auxiliary for substring containment. -/
def startsWith : List Char → List Char → Bool
  | _, [] => true
  | [], _ :: _ => false
  | a :: as, b :: bs => a == b && startsWith as bs

/-- Python `needle in hay` for strings: contiguous substring containment. -/
def containsSub (hay needle : List Char) : Bool :=
  match hay with
  | [] => needle.isEmpty
  | _ :: t => startsWith hay needle || containsSub t needle

/-- Python `re.search(r"\d+:\d+", s)` succeeds iff some digit is directly
followed by a colon and another digit (the minimal match of the pattern). -/
def hasTimerPattern : List Char → Bool
  | a :: b :: c :: rest => (a.isDigit && b == ':' && c.isDigit) || hasTimerPattern (b :: c :: rest)
  | _ => false

/-- Numeric value of a digit string, as produced by Python `int(...)`. -/
def natOfDigits (ds : List Char) : ℕ := ds.foldl (fun n c => 10 * n + (c.toNat - 48)) 0

namespace Video

/-- The `Event` dataclass consumed by `VideoCommentaryGenerator`
(imported from the external `buycommentary` module; its fields are the
keyword arguments used at every construction site in
`video_commentary_generator.py`: `timestamp`, `event_type`, `player`,
`weapon`).  The `EventType` enum values are opaque labels here. -/
structure Event where
  timestamp : ℚ
  event_type : String
  player : String
  weapon : String
deriving DecidableEq

/-- The weapon alias table of `_classify_text_to_event`
(`video_commentary_generator.py` lines 262-273), in declaration order. -/
def weapons : List (String × List (List Char)) :=
  [("vandal", [cs "vandal", cs "vandl", cs "vanda"]),
   ("phantom", [cs "phantom", cs "fantom", cs "phant"]),
   ("operator", [cs "operator", cs "op", cs "opertr"]),
   ("ghost", [cs "ghost", cs "gost", cs "ghst"]),
   ("sheriff", [cs "sheriff", cs "sherif"]),
   ("classic", [cs "classic", cs "clasic"]),
   ("spectre", [cs "spectre", cs "specter"]),
   ("judge", [cs "judge", cs "juge"]),
   ("odin", [cs "odin", cs "odn"]),
   ("ares", [cs "ares", cs "are"])]

/-- The weapon-resolution loop of `_classify_text_to_event`:
`for weapon, variants in weapons.items(): if any(variant in text ...)`.
The first declared weapon one of whose variants occurs in `text` wins. -/
def find_weapon (text : List Char) : Option String :=
  weapons.findSome? (fun wv => if wv.2.any (fun v => containsSub text v) then some wv.1 else none)

/-- Keywords of the `requesting` branch of `_classify_text_to_event`. -/
def req_keywords : List (List Char) := [cs "requesting", cs "request", cs "req"]

/-- Keywords of the `owned` branch of `_classify_text_to_event`. -/
def own_keywords : List (List Char) := [cs "owned", cs "ownd", cs "own", cs "equipped", cs "omned"]

/-- Keywords of the shield branch of `_classify_text_to_event`. -/
def shield_keywords : List (List Char) := [cs "shield", cs "armor", cs "shields"]

/-- Ownership keywords of the shield branch (a smaller set than
`own_keywords`, exactly as in the source). -/
def shield_own_keywords : List (List Char) := [cs "owned", cs "equipped", cs "omned"]

/-- `VideoCommentaryGenerator._classify_text_to_event`
(`video_commentary_generator.py` lines 257-307).  The text is lowered and
stripped; the requesting branch is tried first, then the owned branch,
then the shield branch; each branch returns only when a weapon (resp.
the shield-ownership conjunction) matches, otherwise control falls
through, exactly as in the Python `if`/`return` structure. -/
def classify_text_to_event (text0 : List Char) (timestamp : ℚ) : Option Event :=
  let text := pyStrip (pyLower text0)
  match (if req_keywords.any (fun k => containsSub text k) then find_weapon text else none) with
  | some w => some ⟨timestamp, "requesting_weapon", "Player", w⟩
  | none =>
    match (if own_keywords.any (fun k => containsSub text k) then find_weapon text else none) with
    | some w => some ⟨timestamp, "weapon_owned", "Player", w⟩
    | none =>
      if shield_keywords.any (fun k => containsSub text k) &&
          shield_own_keywords.any (fun k => containsSub text k) then
        some ⟨timestamp, "shield_owned", "Player", "shields"⟩
      else none

/-- `VideoCommentaryGenerator._extract_events_from_ocr`
(`video_commentary_generator.py` lines 233-255): every OCR result text is
lowered/stripped, empty texts are skipped, the rest are classified; the
method reads and writes no instance state. -/
def extract_events_from_ocr (results : List (List Char)) (timestamp : ℚ) : List Event :=
  results.filterMap (fun r =>
    let text := pyStrip (pyLower r)
    if text.isEmpty then none else classify_text_to_event text timestamp)

/-- The cross-frame mutable state read by
`VideoCommentaryGenerator.generate_commentary_for_events`:
`self.last_commentary_time` (initialised to `0`). -/
structure SchedState where
  last_commentary_time : ℚ
deriving DecidableEq

/-- `VideoCommentaryGenerator.generate_commentary_for_events`
(`video_commentary_generator.py` lines 309-332).  `gen` abstracts
`self.commentator.generate_commentary` (external `buycommentary`
module); `commentary_interval` is `self.commentary_interval`.  With no
events or inside the throttle window the method returns `None` and the
state is unchanged; otherwise only `events[0]` is passed to the
commentator, and on success `last_commentary_time` is set to
`timestamp`. -/
def generate_commentary_for_events (gen : Event → Option String) (commentary_interval : ℚ)
    (st : SchedState) (events : List Event) (timestamp : ℚ) : Option String × SchedState :=
  match events with
  | [] => (none, st)
  | event :: _ =>
    if timestamp - st.last_commentary_time < commentary_interval then (none, st)
    else
      match gen event with
      | some txt => (some txt, ⟨timestamp⟩)
      | none => (none, st)

/-- The per-frame trace of `VideoCommentaryGenerator.process_video`
restricted to its commentary decisions: each frame is a pair of its
timestamp and its classified events; the result is the list of
timestamps at which a commentary segment was emitted. -/
def run_commentary (gen : Event → Option String) (commentary_interval : ℚ) :
    SchedState → List (ℚ × List Event) → List ℚ
  | _, [] => []
  | st, (t, evs) :: rest =>
    match generate_commentary_for_events gen commentary_interval st evs t with
    | (some _, st2) => t :: run_commentary gen commentary_interval st2 rest
    | (none, st2) => run_commentary gen commentary_interval st2 rest

/-- One iteration of the commentary part of
`VideoCommentaryGenerator.process_video` (lines 362-378): when the frame
has events, `generate_commentary_for_events` is consulted and a
successful result appends exactly one entry to `self.all_commentary`. -/
def process_frame_commentary (gen : Event → Option String) (commentary_interval : ℚ)
    (st : SchedState) (all_commentary : List (ℚ × String)) (events : List Event)
    (timestamp : ℚ) : List (ℚ × String) × SchedState :=
  if events.isEmpty then (all_commentary, st)
  else
    match generate_commentary_for_events gen commentary_interval st events timestamp with
    | (some txt, st2) => (all_commentary ++ [(timestamp, txt)], st2)
    | (none, st2) => (all_commentary, st2)

end Video

namespace Enhanced

/-- The `GameplayEvent` dataclass of `enhanced_gameplay_commentator.py`
(lines 32-39). -/
structure GameplayEvent where
  timestamp : ℚ
  event_type : String
  description : String
  importance : ℕ
  players_involved : List String
  location : Option String := none
deriving DecidableEq

/-- `GameplayAnalyzer.detect_round_phase`
(`enhanced_gameplay_commentator.py` lines 105-130), with the OCR output
of the timer region given as `(text, confidence)` pairs.  A
high-confidence text matching the timer pattern decides the phase
immediately (PREP on a BUY/PREP keyword, otherwise ACTION); with no such
text the function returns the hardcoded `"ACTION_PHASE"` default. -/
def detect_round_phase : List (List Char × ℚ) → String
  | [] => "ACTION_PHASE"
  | (text, confidence) :: rest =>
    if (3/5 : ℚ) < confidence then
      if hasTimerPattern text then
        if containsSub (pyUpper text) (cs "BUY") || containsSub (pyUpper text) (cs "PREP") then
          "PREP_PHASE"
        else "ACTION_PHASE"
      else detect_round_phase rest
    else detect_round_phase rest

/-- The phase-transition handling of
`EnhancedGameplayCommentator.analyze_gameplay_video` (lines 360-372):
the frame's detected phase replaces `last_round_phase` whenever it
differs, and a `round_start` event is recorded exactly when the new
phase is ACTION and the old one was not (the Boolean result). -/
def phase_transition_step (last_round_phase : String) (results : List (List Char × ℚ)) :
    String × Bool :=
  let current_phase := detect_round_phase results
  if current_phase ≠ last_round_phase then
    (current_phase, current_phase == "ACTION_PHASE" && !(last_round_phase == "ACTION_PHASE"))
  else (last_round_phase, false)

/-- The `score_info` dictionary of `GameplayAnalyzer.analyze_scoreboard`. -/
structure ScoreInfo where
  round : ℕ
  team1_score : ℕ
  team2_score : ℕ
deriving DecidableEq

/-- Python `re.search(r"(\d+)-(\d+)", s)`: the leftmost occurrence of a
digit run, a dash and a digit run, both runs taken greedily.  (For this
pattern greedy matching without backtracking agrees with the regex
engine: a maximal digit run that is not followed by a dash cannot be
shortened into a match, as any shorter prefix is followed by a digit.) -/
def findScore : List Char → Option (ℕ × ℕ)
  | [] => none
  | c :: rest =>
    if c.isDigit then
      match (c :: rest).dropWhile Char.isDigit with
      | '-' :: rest2 =>
        let ds2 := rest2.takeWhile Char.isDigit
        if ds2.isEmpty then findScore rest
        else some (natOfDigits ((c :: rest).takeWhile Char.isDigit), natOfDigits ds2)
      | _ => findScore rest
    else findScore rest

/-- The per-result update of `GameplayAnalyzer.analyze_scoreboard`
(lines 213-220): a result above the `0.7` confidence threshold whose
text contains a score pattern `a-b` overwrites the whole `score_info`,
with `round := a + b + 1`. -/
def scoreboard_step (score_info : ScoreInfo) (p : List Char × ℚ) : ScoreInfo :=
  if (7/10 : ℚ) < p.2 then
    match findScore p.1 with
    | some (a, b) => ⟨a + b + 1, a, b⟩
    | none => score_info
  else score_info

/-- `GameplayAnalyzer.analyze_scoreboard`
(`enhanced_gameplay_commentator.py` lines 198-225); the `timestamp`
parameter is present in the source signature and unused there too.
Starts from `{"round": 1, "team1_score": 0, "team2_score": 0}`. -/
def analyze_scoreboard (results : List (List Char × ℚ)) (timestamp : ℚ) : ScoreInfo :=
  let _ := timestamp
  results.foldl scoreboard_step ⟨1, 0, 0⟩

/-- The scoreboard handling of
`EnhancedGameplayCommentator.analyze_gameplay_video` (lines 374-384):
when the round implied by the current frame differs from the stored one,
an `economic_context` event is created and `last_score_info` is
replaced; otherwise nothing happens. -/
def score_step (last_score_info : ScoreInfo) (results : List (List Char × ℚ)) (timestamp : ℚ) :
    ScoreInfo × Option GameplayEvent :=
  let score_info := analyze_scoreboard results timestamp
  if score_info.round ≠ last_score_info.round then
    (score_info,
      some { timestamp := timestamp, event_type := "economic_context",
             description := "Round " ++ toString score_info.round ++ " - Score: " ++
               toString score_info.team1_score ++ "-" ++ toString score_info.team2_score,
             importance := 2, players_involved := [], location := none })
  else (last_score_info, none)

/-- A commentary segment dictionary as built by
`EnhancedGameplayCommentator` (and, with a subset of the keys, by the
other generators): timestamp, text, event type, importance, style and an
optional audio reference (`audio_file`, absent/None until synthesis
succeeds). -/
structure Segment where
  timestamp : ℚ
  text : String
  event_type : String
  importance : ℕ
  style : String
  audio_file : Option String := none
deriving DecidableEq

/-- `EnhancedGameplayCommentator._generate_event_commentary`
(lines 422-443).  `choose` abstracts
`random.choice(self.commentary_templates.get(event.event_type, [...]))`
as a function of the event type (the injectable random source; the
English template texts play no role in any verified property).  A
segment is always appended; its style is `excitement` for importance
`>= 4`, else `play_by_play`. -/
def generate_event_commentary (choose : String → String) (segs : List Segment)
    (e : GameplayEvent) : List Segment :=
  let commentary_text :=
    match e.location with
    | some loc => choose e.event_type ++ " Position: " ++ loc ++ "."
    | none => choose e.event_type
  segs ++ [{ timestamp := e.timestamp, text := commentary_text, event_type := e.event_type,
             importance := e.importance,
             style := if 4 ≤ e.importance then "excitement" else "play_by_play",
             audio_file := none }]

/-- The commentary loop of
`EnhancedGameplayCommentator.analyze_gameplay_video` (lines 402-404):
every event of the frame with importance `>= 3` produces a segment,
unconditionally on time. -/
def comment_important_events (choose : String → String) (segs : List Segment)
    (events : List GameplayEvent) : List Segment :=
  events.foldl (fun acc e =>
    if 3 ≤ e.importance then generate_event_commentary choose acc e else acc) segs

/-- Number of iterations of the `while current_time < duration` loop of
`_add_general_commentary`: the loop visits `current_time = 12 * k`
exactly for the naturals `k` with `12 * k < duration`, i.e. for
`k < ⌈duration / 12⌉`. -/
def filler_iterations (duration : ℚ) : ℕ := (⌈duration / 12⌉).toNat

/-- One iteration of `EnhancedGameplayCommentator._add_general_commentary`
(lines 451-479) at `current_time = 12 * k`: if any existing segment lies
within `5` seconds nothing happens, otherwise a filler segment of
importance `2` and style `analysis` is appended.  `choose` abstracts
`random.choice(general_comments)` per iteration. -/
def general_commentary_step (choose : ℕ → String) (acc : List Segment) (k : ℕ) : List Segment :=
  let current_time : ℚ := 12 * k
  if acc.any (fun seg => decide (|seg.timestamp - current_time| < 5)) then acc
  else acc ++ [{ timestamp := current_time, text := choose k, event_type := "general",
                 importance := 2, style := "analysis", audio_file := none }]

/-- `EnhancedGameplayCommentator._add_general_commentary`
(`enhanced_gameplay_commentator.py` lines 445-479), with
`commentary_interval = 12` as in the source. -/
def add_general_commentary (choose : ℕ → String) (segs : List Segment) (duration : ℚ) :
    List Segment :=
  (List.range (filler_iterations duration)).foldl (general_commentary_step choose) segs

/-- The sorting step of
`EnhancedGameplayCommentator.generate_voice_commentary` (lines 492-493):
`self.commentary_segments.sort(key=lambda x: x["timestamp"])`. -/
def sort_commentary_segments (segs : List Segment) : List Segment :=
  segs.mergeSort (fun a b => decide (a.timestamp ≤ b.timestamp))

/-- `EnhancedGameplayCommentator.generate_voice_commentary`
(lines 481-529): the segments are sorted by timestamp, then each segment
is synthesised; on success its `audio_file` key is set, on failure
(`except` branch, lines 520-521) the segment is left unchanged — its
`audio_file` key is never created, so it reads as `None` — and the loop
continues with the next segment.  `synth` abstracts the external
ElevenLabs call plus file write.  The resulting list is exactly what
`_save_results` (lines 604-633) then persists as
`commentary_segments`. -/
def generate_voice_commentary (synth : Segment → Option String) (segs : List Segment) :
    List Segment :=
  (sort_commentary_segments segs).map (fun segment =>
    match synth segment with
    | some path => { segment with audio_file := some path }
    | none => segment)

end Enhanced

namespace Voice

/-- `VoiceCommentaryGenerator.generate_voice_commentary`
(`voice_commentary_generator.py` lines 192-231): each segment is
synthesised in order; on success `segment["audio_file"]` is set to the
saved path, on failure the `except` branch (lines 227-229) sets
`segment["audio_file"] = None` and the loop continues with the next
segment. -/
def generate_voice_commentary (synth : Enhanced.Segment → Option String)
    (segs : List Enhanced.Segment) : List Enhanced.Segment :=
  segs.map (fun segment =>
    match synth segment with
    | some path => { segment with audio_file := some path }
    | none => { segment with audio_file := none })

end Voice

namespace Advanced

/-- One mock/real detection entry of `advanced_video_commentary.py`
(relevant field: `mock_ocr_text`, read by the commentary generators). -/
structure MockDetection where
  mock_ocr_text : List Char
deriving DecidableEq

/-- One entry of the detection list consumed by
`AdvancedVideoCommentaryGenerator.generate_ai_commentary`: a frame
timestamp and its detections. -/
structure DetectionFrame where
  timestamp : ℚ
  detections : List MockDetection
deriving DecidableEq

/-- The commentary object returned by
`BuyPhaseCommentator.generate_commentary` (external `buycommentary`
module), with the two attributes read by
`advanced_video_commentary.py`: `text` and `caster`. -/
structure BuyCommentary where
  text : String
  caster : String
deriving DecidableEq

/-- The weapon list of
`AdvancedVideoCommentaryGenerator._extract_weapon_from_text`
(lines 330-339). -/
def adv_weapons : List String :=
  ["Vandal", "Phantom", "Operator", "Ghost", "Sheriff", "Spectre", "Judge"]

/-- The player list of
`AdvancedVideoCommentaryGenerator._extract_player_from_text`
(lines 341-349). -/
def adv_players : List String :=
  ["TenZ", "ScreaM", "Shroud", "Player1", "Player2"]

/-- `AdvancedVideoCommentaryGenerator._extract_weapon_from_text`
(lines 330-339): the first listed weapon whose uppercased name occurs in
the uppercased text, else `"Unknown"`. -/
def extract_weapon_from_text (text : List Char) : String :=
  (adv_weapons.find? (fun w => containsSub (pyUpper text) (pyUpper (cs w)))).getD "Unknown"

/-- `AdvancedVideoCommentaryGenerator._extract_player_from_text`
(lines 341-349): the first listed player name occurring (case
sensitively) in the text, else `"Player"`. -/
def extract_player_from_text (text : List Char) : String :=
  (adv_players.find? (fun p => containsSub text (cs p))).getD "Player"

/-- A commentary segment dictionary as appended by
`_use_existing_commentary_system` (lines 236-243 and 258-265):
`{timestamp, text, caster, event_type, player, weapon}`. -/
structure AdvSegment where
  timestamp : ℚ
  text : String
  caster : String
  event_type : String
  player : String
  weapon : String
deriving DecidableEq

/-- The per-detection body of
`AdvancedVideoCommentaryGenerator._use_existing_commentary_system`
(lines 216-265): a `REQUESTING` text yields a requesting-weapon event,
otherwise an `OWNED` text yields a weapon-owned event; in either case a
segment is appended only when the commentator (`gen`) returns a
commentary, and the segment carries the frame timestamp. -/
def segment_for_detection (gen : Video.Event → Option BuyCommentary) (timestamp : ℚ)
    (det : MockDetection) : Option AdvSegment :=
  if containsSub det.mock_ocr_text (cs "REQUESTING") then
    let weapon := extract_weapon_from_text det.mock_ocr_text
    let player := extract_player_from_text det.mock_ocr_text
    (gen ⟨timestamp, "requesting_weapon", player, weapon⟩).map
      (fun c => ⟨timestamp, c.text, c.caster, "requesting_weapon", player, weapon⟩)
  else if containsSub det.mock_ocr_text (cs "OWNED") then
    let weapon := extract_weapon_from_text det.mock_ocr_text
    let player := extract_player_from_text det.mock_ocr_text
    (gen ⟨timestamp, "weapon_owned", player, weapon⟩).map
      (fun c => ⟨timestamp, c.text, c.caster, "weapon_owned", player, weapon⟩)
  else none

/-- One frame of the outer loop of `_use_existing_commentary_system`:
the segments derived from the frame's detections are appended to
`self.commentary_segments`. -/
def advance_frame (gen : Video.Event → Option BuyCommentary) (acc : List AdvSegment)
    (df : DetectionFrame) : List AdvSegment :=
  acc ++ df.detections.filterMap (segment_for_detection gen df.timestamp)

/-- `AdvancedVideoCommentaryGenerator._use_existing_commentary_system`
(`advanced_video_commentary.py` lines 210-267): the full
`commentary_segments` list built from the detection list, exactly as
later persisted unchanged by `save_final_results` (lines 351-375). -/
def use_existing_commentary_system (gen : Video.Event → Option BuyCommentary)
    (detections : List DetectionFrame) : List AdvSegment :=
  detections.foldl (advance_frame gen) []

end Advanced

/-! Concrete inputs used by witness and counterexample theorems. -/

/-- A commentator that always produces a commentary (test input). -/
def gen_always : Video.Event → Option String := fun _ => some "commentary"

/-- A template chooser returning a fixed text (test input). -/
def template0 : String → String := fun _ => "The action continues to unfold!"

/-- A filler-text chooser returning a fixed text (test input). -/
def choose0 : ℕ → String := fun _ => "The tactical positioning continues to evolve!"

/-- A synthesis backend that always fails (test input). -/
def synth_none : Enhanced.Segment → Option String := fun _ => none

/-- A buy-phase commentator that always answers (test input). -/
def buy_gen : Video.Event → Option Advanced.BuyCommentary :=
  fun _ => some ⟨"Big request on the table!", "Hype"⟩

/-- An importance-3 elimination-style event at `t = 12` (test input). -/
def gameplay_ev12 : Enhanced.GameplayEvent :=
  { timestamp := 12, event_type := "round_start", description := "Round action phase begins",
    importance := 3, players_involved := [], location := none }

/-- An importance-3 event at `t = 13` (test input). -/
def gameplay_ev13 : Enhanced.GameplayEvent :=
  { timestamp := 13, event_type := "ability_used",
    description := "Ability usage detected - tactical play in progress",
    importance := 3, players_involved := [], location := none }

/-- A buy-phase event at `t = 11` (test input). -/
def event11 : Video.Event := ⟨11, "requesting_weapon", "Player", "vandal"⟩

/-- A real commentary segment at `t = 3` (test input). -/
def real_seg3 : Enhanced.Segment :=
  { timestamp := 3, text := "Spike is down!", event_type := "spike_plant",
    importance := 5, style := "excitement", audio_file := none }

/-- The filler segment produced at `t = 12` by `choose0` (test input). -/
def filler_seg12 : Enhanced.Segment :=
  { timestamp := 12, text := choose0 1, event_type := "general",
    importance := 2, style := "analysis", audio_file := none }

/-- A commentary segment at `t = 5` with no audio (test input). -/
def seg5 : Enhanced.Segment :=
  { timestamp := 5, text := "HEADSHOT!", event_type := "headshot",
    importance := 5, style := "excitement", audio_file := none }

/-- A detection frame at `t = 1` with a REQUESTING text (test input). -/
def frame1 : Advanced.DetectionFrame :=
  ⟨1, [⟨cs "REQUESTING Vandal TenZ"⟩]⟩

/-- A detection frame at `t = 2` with an OWNED text (test input). -/
def frame2 : Advanced.DetectionFrame :=
  ⟨2, [⟨cs "OWNED Ghost Player1"⟩]⟩

/-! Helper lemmas. -/

/-- A `findSome?` whose function is a guarded projection is a `find?`
followed by a `map`: the first element satisfying the guard wins. -/
lemma list_findSome?_guard {α β : Type} (p : α → Bool) (g : α → β) :
    ∀ l : List α, (l.findSome? fun a => if p a then some (g a) else none) = (l.find? p).map g := by
  intro l
  induction l with
  | nil => rfl
  | cons a l ih => by_cases h : p a <;> simp [List.findSome?_cons, List.find?_cons, h, ih]

/-- `scoreboard_step` preserves the invariant
`round = team1_score + team2_score + 1`. -/
lemma scoreboard_foldl_round :
    ∀ (results : List (List Char × ℚ)) (init : Enhanced.ScoreInfo),
      init.round = init.team1_score + init.team2_score + 1 →
      (results.foldl Enhanced.scoreboard_step init).round =
        (results.foldl Enhanced.scoreboard_step init).team1_score +
          (results.foldl Enhanced.scoreboard_step init).team2_score + 1 := by
  intro results
  induction results with
  | nil => intro init h; simpa using h
  | cons p rest ih =>
    intro init h
    rw [List.foldl_cons]
    apply ih
    unfold Enhanced.scoreboard_step
    by_cases hc : (7/10 : ℚ) < p.2
    · rw [if_pos hc]
      cases hf : Enhanced.findScore p.1 with
      | none => exact h
      | some ab => obtain ⟨a, b⟩ := ab; simp
    · rw [if_neg hc]; exact h

/-- Concrete evaluation: a confident `"12-10"` scoreboard reading. -/
lemma analyze_scoreboard_12_10 :
    Enhanced.analyze_scoreboard [(cs "12-10", 9/10)] 300 = ⟨23, 12, 10⟩ := by
  have hf : Enhanced.findScore (cs "12-10") = some (12, 10) := by decide
  simp only [Enhanced.analyze_scoreboard, List.foldl, Enhanced.scoreboard_step]
  rw [if_pos (show (7:ℚ)/10 < 9/10 by norm_num), hf]

/-- C6.  A confident `"12-10"` detection at `t = 300` yields the score
info `team1 = 12`, `team2 = 10`, `round = 23`; and over every result
list the implied round number equals `team1_score + team2_score + 1`. -/
theorem C6_score_parse :
    Enhanced.analyze_scoreboard [(cs "12-10", 9/10)] 300 = ⟨23, 12, 10⟩ ∧
    ∀ (results : List (List Char × ℚ)) (t : ℚ),
      (Enhanced.analyze_scoreboard results t).round =
        (Enhanced.analyze_scoreboard results t).team1_score +
          (Enhanced.analyze_scoreboard results t).team2_score + 1 := by
  refine ⟨analyze_scoreboard_12_10, ?_⟩
  intro results t
  exact scoreboard_foldl_round results ⟨1, 0, 0⟩ rfl

/-- C7.  Classification of a detection set is record-independent (hence
a pure function of the set, with no hidden cross-record counter):
extracting events from a concatenation is the concatenation of the
extractions, and each record contributes exactly the events of its own
singleton classification. -/
theorem C7_classification_pure :
    ∀ (ds₁ ds₂ : List (List Char)) (d : List Char) (t : ℚ),
      Video.extract_events_from_ocr (ds₁ ++ ds₂) t =
        Video.extract_events_from_ocr ds₁ t ++ Video.extract_events_from_ocr ds₂ t ∧
      Video.extract_events_from_ocr (d :: ds₁) t =
        Video.extract_events_from_ocr [d] t ++ Video.extract_events_from_ocr ds₁ t := by
  intro ds₁ ds₂ d t
  refine ⟨by simp [Video.extract_events_from_ocr, List.filterMap_append], ?_⟩
  exact List.filterMap_append [d] ds₁ _

/-- C8.  Weapon aliases resolve through the table in declaration order:
`find_weapon` returns the first declared weapon with a matching variant;
any text containing `"vandl"` or `"vanda"` resolves to `"vandal"`;
`"vandal ghost"` matches the aliases of both `vandal` and `ghost` and
resolves to `"vandal"`; and a requesting text classifies to a
requesting-weapon event for `"vandal"`. -/
theorem C8_weapon_alias_priority :
    (∀ text : List Char,
        Video.find_weapon text =
          (Video.weapons.find? (fun wv => wv.2.any (fun v => containsSub text v))).map
            Prod.fst) ∧
    (∀ text : List Char,
        containsSub text (cs "vandl") = true ∨ containsSub text (cs "vanda") = true →
        Video.find_weapon text = some "vandal") ∧
    Video.find_weapon (cs "vandal ghost") = some "vandal" ∧
    containsSub (cs "vandal ghost") (cs "ghost") = true ∧
    Video.classify_text_to_event (cs "requesting vandal ghost") 12 =
      some ⟨12, "requesting_weapon", "Player", "vandal"⟩ := by
  refine ⟨?_, ?_, by decide, by decide, by decide⟩
  · intro text
    exact list_findSome?_guard (fun wv => wv.2.any (fun v => containsSub text v))
      Prod.fst Video.weapons
  · intro text h
    have hcond : containsSub text (cs "vandal") = true ∨
        containsSub text (cs "vandl") = true ∨ containsSub text (cs "vanda") = true := by
      rcases h with h | h
      · exact Or.inr (Or.inl h)
      · exact Or.inr (Or.inr h)
    simp only [Video.find_weapon, Video.weapons, List.findSome?_cons, List.any_cons,
      List.any_nil, Bool.or_eq_true, Bool.or_false]
    rw [if_pos hcond]

/-- C8 witness: the general vandal-alias clause applied to a concrete
text containing the alias `"vandl"`. -/
theorem C8_weapon_alias_priority_witness :
    Video.find_weapon (cs "drop a vandl") = some "vandal" :=
  C8_weapon_alias_priority.2.1 (cs "drop a vandl") (Or.inl (by decide))

/-- C10.  The video commentary step reads only the first event of the
frame: the result on `e :: rest` equals the result on `[e]`; and one
frame appends at most one entry to the persisted commentary list. -/
theorem C10_only_first_event :
    (∀ (gen : Video.Event → Option String) (ci : ℚ) (st : Video.SchedState) (e : Video.Event)
        (rest : List Video.Event) (t : ℚ),
        Video.generate_commentary_for_events gen ci st (e :: rest) t =
          Video.generate_commentary_for_events gen ci st [e] t) ∧
    (∀ (gen : Video.Event → Option String) (ci : ℚ) (st : Video.SchedState)
        (acc : List (ℚ × String)) (events : List Video.Event) (t : ℚ),
        (Video.process_frame_commentary gen ci st acc events t).1.length ≤ acc.length + 1) := by
  constructor
  · intro gen ci st e rest t; rfl
  · intro gen ci st acc events t
    unfold Video.process_frame_commentary
    by_cases he : events.isEmpty
    · simp [he]
    · rw [if_neg he]
      cases hg : Video.generate_commentary_for_events gen ci st events t with
      | mk o st2 => cases o <;> simp

/-- Concrete evaluation: a confident but unrecognized timer text (no
digit-colon-digit pattern) falls through to the hardcoded default. -/
lemma detect_round_phase_ROUND :
    Enhanced.detect_round_phase [(cs "ROUND", 9/10)] = "ACTION_PHASE" := by
  simp only [Enhanced.detect_round_phase]
  rw [if_pos (show (3:ℚ)/5 < 9/10 by norm_num),
    if_neg (show ¬ hasTimerPattern (cs "ROUND") = true by decide)]

/-- C2 counterexample.  A frame whose timer region reads a confident but
unrecognized text (`"ROUND"`, no keyword and no countdown) does not
leave the current phase unchanged: from stored phase `PREP_PHASE` the
caller switches to `ACTION_PHASE` (and even records a `round_start`
transition). -/
theorem C2_counterexample :
    Enhanced.phase_transition_step "PREP_PHASE" [(cs "ROUND", 9/10)] =
      ("ACTION_PHASE", true) := by
  simp only [Enhanced.phase_transition_step, detect_round_phase_ROUND]
  decide

/-- C2 amended.  On a frame with no high-confidence timer-pattern text
the detector returns the hardcoded default `"ACTION_PHASE"`, and the
caller then forces the stored phase to `ACTION_PHASE` (recording a
`round_start` transition when the stored phase differed) instead of
leaving it unchanged. -/
theorem C2_amended :
    (∀ results : List (List Char × ℚ),
        (∀ p ∈ results, ¬((3/5 : ℚ) < p.2 ∧ hasTimerPattern p.1 = true)) →
        Enhanced.detect_round_phase results = "ACTION_PHASE") ∧
    (∀ (last : String) (results : List (List Char × ℚ)),
        Enhanced.detect_round_phase results = "ACTION_PHASE" → last ≠ "ACTION_PHASE" →
        Enhanced.phase_transition_step last results = ("ACTION_PHASE", true)) := by
  constructor
  · intro results
    induction results with
    | nil => intro _; rfl
    | cons p rest ih =>
      intro h
      obtain ⟨t, c⟩ := p
      have hp := h (t, c) (List.mem_cons_self _ _)
      simp only [Enhanced.detect_round_phase]
      by_cases hc : (3/5 : ℚ) < c
      · have ht : ¬ hasTimerPattern t = true := fun htt => hp ⟨hc, htt⟩
        rw [if_pos hc, if_neg ht]
        exact ih (fun q hq => h q (List.mem_cons_of_mem _ hq))
      · rw [if_neg hc]
        exact ih (fun q hq => h q (List.mem_cons_of_mem _ hq))
  · intro last results hd hl
    simp only [Enhanced.phase_transition_step, hd]
    rw [if_pos (Ne.symm hl)]
    simp [hl]

/-- C2 witness: the amended claim applied to a frame whose only timer
text is below the confidence threshold, from stored phase
`PREP_PHASE`. -/
theorem C2_amended_witness :
    Enhanced.phase_transition_step "PREP_PHASE" [(cs "SHOP", 1/2)] = ("ACTION_PHASE", true) :=
  C2_amended.2 "PREP_PHASE" [(cs "SHOP", 1/2)]
    (C2_amended.1 [(cs "SHOP", 1/2)]
      (by
        intro p hp
        rw [List.mem_singleton] at hp
        subst hp
        rintro ⟨hc, -⟩
        norm_num at hc))
    (by decide)

/-- Concrete evaluation: from the initial score state, a confident
`"12-10"` frame advances the stored score info to round 23. -/
lemma score_step_12_10 :
    (Enhanced.score_step ⟨1, 0, 0⟩ [(cs "12-10", 9/10)] 300).1 = ⟨23, 12, 10⟩ := by
  simp only [Enhanced.score_step, analyze_scoreboard_12_10]
  rw [if_pos (by decide : (⟨23, 12, 10⟩ : Enhanced.ScoreInfo).round ≠
    (⟨1, 0, 0⟩ : Enhanced.ScoreInfo).round)]

/-- C3 counterexample.  The stored round number can decrease: after a
confident `"12-10"` frame stores round 23, a frame whose scoreboard
fails to parse implies round 1, and since the update fires on mere
difference (`!=`, not `>`) the stored round falls back to 1. -/
theorem C3_counterexample :
    ((Enhanced.score_step ⟨1, 0, 0⟩ [(cs "12-10", 9/10)] 300).1).round = 23 ∧
    ((Enhanced.score_step
        (Enhanced.score_step ⟨1, 0, 0⟩ [(cs "12-10", 9/10)] 300).1 [] 301).1).round = 1 := by
  refine ⟨by rw [score_step_12_10], ?_⟩
  rw [score_step_12_10]
  decide

/-- C3 amended.  A parsed `ScoreChange` updates the stored round (and
emits a derived economic-context event) exactly when its implied round
number differs from the stored round — not only when it exceeds it.  In
particular an exceeding round advances the counter and emits the event,
but the stored round is not monotone. -/
theorem C3_amended :
    (∀ (last : Enhanced.ScoreInfo) (results : List (List Char × ℚ)) (t : ℚ),
        last.round < (Enhanced.analyze_scoreboard results t).round →
        (Enhanced.score_step last results t).1 = Enhanced.analyze_scoreboard results t ∧
        (Enhanced.score_step last results t).2.isSome = true) ∧
    (∀ (last : Enhanced.ScoreInfo) (results : List (List Char × ℚ)) (t : ℚ),
        (Enhanced.score_step last results t).2.isSome = true ↔
          (Enhanced.analyze_scoreboard results t).round ≠ last.round) := by
  constructor
  · intro last results t h
    have hne : (Enhanced.analyze_scoreboard results t).round ≠ last.round := ne_of_gt h
    simp only [Enhanced.score_step]
    rw [if_pos hne]
    exact ⟨rfl, rfl⟩
  · intro last results t
    simp only [Enhanced.score_step]
    by_cases hne : (Enhanced.analyze_scoreboard results t).round ≠ last.round
    · rw [if_pos hne]; simpa using hne
    · rw [if_neg hne]; simpa using hne

/-- C3 witness: the amended claim applied at the initial score state and
a confident `"12-10"` frame, whose implied round 23 exceeds 1. -/
theorem C3_amended_witness :
    (⟨1, 0, 0⟩ : Enhanced.ScoreInfo).round <
        (Enhanced.analyze_scoreboard [(cs "12-10", 9/10)] 300).round ∧
    (Enhanced.score_step ⟨1, 0, 0⟩ [(cs "12-10", 9/10)] 300).1 =
        Enhanced.analyze_scoreboard [(cs "12-10", 9/10)] 300 := by
  have hlt : (⟨1, 0, 0⟩ : Enhanced.ScoreInfo).round <
      (Enhanced.analyze_scoreboard [(cs "12-10", 9/10)] 300).round := by
    rw [analyze_scoreboard_12_10]; decide
  exact ⟨hlt, (C3_amended.1 ⟨1, 0, 0⟩ [(cs "12-10", 9/10)] 300 hlt).1⟩

/-- Along any frame trace, the timestamps at which the video scheduler
emits satisfy: each emission is at least `commentary_interval` after the
previous one, and the first emission is at least `commentary_interval`
after the initial `last_commentary_time`. -/
lemma run_commentary_chain (gen : Video.Event → Option String) (ci : ℚ) :
    ∀ (frames : List (ℚ × List Video.Event)) (last : ℚ),
      List.Chain' (fun a b => a + ci ≤ b) (Video.run_commentary gen ci ⟨last⟩ frames) ∧
      ∀ x ∈ (Video.run_commentary gen ci ⟨last⟩ frames).head?, last + ci ≤ x := by
  intro frames
  induction frames with
  | nil =>
    intro last
    exact ⟨List.chain'_nil, by simp [Video.run_commentary]⟩
  | cons f rest ih =>
    intro last
    obtain ⟨t, evs⟩ := f
    cases evs with
    | nil =>
      have hstep : Video.run_commentary gen ci ⟨last⟩ ((t, []) :: rest) =
          Video.run_commentary gen ci ⟨last⟩ rest := by
        simp [Video.run_commentary, Video.generate_commentary_for_events]
      rw [hstep]; exact ih last
    | cons e es =>
      by_cases hth : t - last < ci
      · have hstep : Video.run_commentary gen ci ⟨last⟩ ((t, e :: es) :: rest) =
            Video.run_commentary gen ci ⟨last⟩ rest := by
          simp [Video.run_commentary, Video.generate_commentary_for_events, hth]
        rw [hstep]; exact ih last
      · cases hgen : gen e with
        | none =>
          have hstep : Video.run_commentary gen ci ⟨last⟩ ((t, e :: es) :: rest) =
              Video.run_commentary gen ci ⟨last⟩ rest := by
            simp [Video.run_commentary, Video.generate_commentary_for_events, hth, hgen]
          rw [hstep]; exact ih last
        | some txt =>
          have hstep : Video.run_commentary gen ci ⟨last⟩ ((t, e :: es) :: rest) =
              t :: Video.run_commentary gen ci ⟨t⟩ rest := by
            simp [Video.run_commentary, Video.generate_commentary_for_events, hth, hgen]
          rw [hstep]
          have hle : last + ci ≤ t := by
            have := not_lt.mp hth
            linarith
          refine ⟨List.chain'_cons'.mpr ⟨fun y hy => (ih t).2 y hy, (ih t).1⟩, ?_⟩
          intro x hx
          simp only [List.head?, Option.mem_def, Option.some.injEq] at hx
          rw [← hx]
          exact hle

/-- C1 counterexample.  The claimed importance override does not exist:
with `commentary_interval = 2` and `last_commentary_time = 10`, an event
at `t = 11` is suppressed by the video scheduler even though the
commentator would speak (and regardless of any importance attached to
the detection); and the enhanced commentator emits two importance-3
(below the claimed override threshold 4) segments at `t = 12` and
`t = 13`, only 1 second — less than `minInterval = 2` — apart. -/
theorem C1_counterexample :
    (Video.generate_commentary_for_events gen_always 2 ⟨10⟩ [event11] 11).1 = none ∧
    (Enhanced.comment_important_events template0 [] [gameplay_ev12, gameplay_ev13]).map
        (fun s => (s.timestamp, s.importance)) = [(12, 3), (13, 3)] ∧
    (13 : ℚ) - 12 < 2 ∧ (3 : ℕ) < 4 := by
  refine ⟨?_, by decide, by norm_num, by decide⟩
  simp only [Video.generate_commentary_for_events]
  rw [if_pos (show (11 : ℚ) - (⟨10⟩ : Video.SchedState).last_commentary_time < 2 by norm_num)]

/-- C1 amended.  The video scheduler suppresses a frame's commentary
exactly when `now - last_commentary_time < commentary_interval` or the
commentator returns nothing — importance provides no override, so every
event inside the window is suppressed; consequently any two emitted
segments (of any importance) are at least `commentary_interval` apart on
the global channel.  The enhanced commentator applies no interval
throttle at all: a frame event produces a segment exactly when its
importance is at least 3. -/
theorem C1_amended :
    (∀ (gen : Video.Event → Option String) (ci : ℚ) (st : Video.SchedState) (e : Video.Event)
        (es : List Video.Event) (t : ℚ),
        (Video.generate_commentary_for_events gen ci st (e :: es) t).1 = none ↔
          (t - st.last_commentary_time < ci ∨ gen e = none)) ∧
    (∀ (gen : Video.Event → Option String) (ci : ℚ) (last : ℚ)
        (frames : List (ℚ × List Video.Event)),
        List.Chain' (fun a b => a + ci ≤ b) (Video.run_commentary gen ci ⟨last⟩ frames)) ∧
    (∀ (choose : String → String) (segs : List Enhanced.Segment)
        (e : Enhanced.GameplayEvent),
        Enhanced.comment_important_events choose segs [e] =
          if 3 ≤ e.importance then Enhanced.generate_event_commentary choose segs e
          else segs) := by
  refine ⟨?_, ?_, ?_⟩
  · intro gen ci st e es t
    simp only [Video.generate_commentary_for_events]
    by_cases hth : t - st.last_commentary_time < ci
    · simp [hth]
    · cases hgen : gen e with
      | none => simp [hth, hgen]
      | some txt => simp [hth, hgen]
  · intro gen ci last frames
    exact (run_commentary_chain gen ci frames last).1
  · intro choose segs e
    rfl

/-- The gap-filling loop over a 24-second span runs for
`current_time = 0` and `current_time = 12` only. -/
lemma filler_iterations_24 : Enhanced.filler_iterations 24 = 2 := by
  norm_num [Enhanced.filler_iterations]; rfl

/-- Concrete evaluation: over 24 seconds with no pre-existing segments,
the gap filler produces segments at `t = 0` and `t = 12` (not at 12 and
24), whatever texts the random source picks. -/
lemma add_general_24_empty (choose : ℕ → String) :
    (Enhanced.add_general_commentary choose [] 24).map (fun s => s.timestamp) = [0, 12] := by
  have hr : List.range (Enhanced.filler_iterations 24) = [0, 1] := by
    rw [filler_iterations_24]; rfl
  rw [Enhanced.add_general_commentary, hr]
  simp only [List.foldl, Enhanced.general_commentary_step, List.any_nil, List.any_cons,
    Bool.or_false, if_neg, Nat.cast_zero, Nat.cast_one, mul_zero, mul_one]
  norm_num

/-- Every filler appended by `_add_general_commentary` lies at least 5
seconds from every segment present when it is considered; in particular
from every pre-existing (real) segment. -/
lemma general_commentary_inv (choose : ℕ → String) (segs : List Enhanced.Segment) :
    ∀ (ks : List ℕ) (acc : List Enhanced.Segment),
      (∀ s ∈ segs, s ∈ acc) →
      (∀ g ∈ acc, g ∈ segs ∨ ∀ s ∈ segs, 5 ≤ |s.timestamp - g.timestamp|) →
      ∀ f ∈ ks.foldl (Enhanced.general_commentary_step choose) acc,
        f ∈ segs ∨ ∀ s ∈ segs, 5 ≤ |s.timestamp - f.timestamp| := by
  intro ks
  induction ks with
  | nil => intro acc _ hinv; simpa using hinv
  | cons k ks ih =>
    intro acc hsub hinv
    rw [List.foldl_cons]
    by_cases hany : (acc.any fun seg => decide (|seg.timestamp - (12 * (k : ℚ))| < 5)) = true
    · have hstep : Enhanced.general_commentary_step choose acc k = acc := by
        simp only [Enhanced.general_commentary_step]
        rw [if_pos hany]
      rw [hstep]
      exact ih acc hsub hinv
    · have hstep : Enhanced.general_commentary_step choose acc k =
          acc ++ [⟨12 * (k : ℚ), choose k, "general", 2, "analysis", none⟩] := by
        simp only [Enhanced.general_commentary_step]
        rw [if_neg hany]
      rw [hstep]
      apply ih
      · intro s hs; exact List.mem_append_left _ (hsub s hs)
      · intro g hg
        rcases List.mem_append.mp hg with h | h
        · exact hinv g h
        · rw [List.mem_singleton] at h
          subst h
          right
          intro s hs
          have hno : ¬(|s.timestamp - (12 * (k : ℚ))| < 5) := by
            intro hlt
            apply hany
            rw [List.any_eq_true]
            exact ⟨s, hsub s hs, by simpa using hlt⟩
          exact not_lt.mp hno

/-- C4 counterexample.  Over a 24-second span with no real events and
`fillCadence = 12`, the pass produces its two fillers at `t = 0` and
`t = 12` — the loop starts at `current_time = 0` and stops strictly
before `duration` — so neither produced segment is near `t = 24`, and
the first is near neither 12 nor 24. -/
theorem C4_counterexample :
    (Enhanced.add_general_commentary choose0 [] 24).map (fun s => s.timestamp) = [0, 12] ∧
    ¬(|(0 : ℚ) - 12| < 5) ∧ ¬(|(12 : ℚ) - 24| < 5) ∧ ¬(|(0 : ℚ) - 24| < 5) := by
  exact ⟨add_general_24_empty choose0, by norm_num, by norm_num, by norm_num⟩

/-- C4 amended.  Over a 24-second span with no real events and
`fillCadence = 12`, the gap-filling pass produces exactly two filler
segments, at `t = 0` and `t = 12` (not near 12 and 24); and every
segment it adds lies at least 5 seconds from every pre-existing (real)
segment. -/
theorem C4_amended :
    (∀ choose : ℕ → String,
        (Enhanced.add_general_commentary choose [] 24).map (fun s => s.timestamp) = [0, 12]) ∧
    (∀ (choose : ℕ → String) (segs : List Enhanced.Segment) (duration : ℚ)
        (f : Enhanced.Segment),
        f ∈ Enhanced.add_general_commentary choose segs duration →
        f ∈ segs ∨ ∀ s ∈ segs, 5 ≤ |s.timestamp - f.timestamp|) := by
  refine ⟨fun choose => add_general_24_empty choose, ?_⟩
  intro choose segs duration f hf
  exact general_commentary_inv choose segs _ segs (fun s hs => hs) (fun g hg => Or.inl hg) f hf

/-- Concrete evaluation: with one real segment at `t = 3`, the filler at
`t = 0` is skipped (within 5 seconds of it) and a filler at `t = 12` is
appended. -/
lemma add_general_24_real :
    Enhanced.add_general_commentary choose0 [real_seg3] 24 = [real_seg3, filler_seg12] := by
  have hr : List.range (Enhanced.filler_iterations 24) = [0, 1] := by
    rw [filler_iterations_24]; rfl
  rw [Enhanced.add_general_commentary, hr]
  have hstep0 : Enhanced.general_commentary_step choose0 [real_seg3] 0 = [real_seg3] := by
    have hin : |real_seg3.timestamp| < 5 := by norm_num [real_seg3]
    simp [Enhanced.general_commentary_step, hin]
  have hstep1 : Enhanced.general_commentary_step choose0 [real_seg3] 1 =
      [real_seg3, filler_seg12] := by
    have hout : 5 ≤ |real_seg3.timestamp - 12| := by norm_num [real_seg3]
    simp [Enhanced.general_commentary_step, filler_seg12, hout]
  rw [List.foldl_cons, hstep0, List.foldl_cons, hstep1, List.foldl_nil]

/-- C4 witness: the separation clause of the amended claim applied to
the filler produced at `t = 12` next to a real segment at `t = 3`. -/
theorem C4_amended_witness :
    filler_seg12 ∈ [real_seg3] ∨
      ∀ s ∈ [real_seg3], 5 ≤ |s.timestamp - filler_seg12.timestamp| :=
  C4_amended.2 choose0 [real_seg3] 24 filler_seg12
    (by rw [add_general_24_real]; simp)

/-- The sort performed before persisting the enhanced commentary is
correct: the result is pairwise ordered by timestamp. -/
lemma sort_commentary_segments_sorted (segs : List Enhanced.Segment) :
    List.Pairwise (fun a b : Enhanced.Segment => a.timestamp ≤ b.timestamp)
      (Enhanced.sort_commentary_segments segs) := by
  have h := @List.sorted_mergeSort Enhanced.Segment
    (fun a b => decide (a.timestamp ≤ b.timestamp))
    (fun a b c hab hbc => by
      simp only [decide_eq_true_eq] at *
      exact le_trans hab hbc)
    (fun a b => by
      simp only [Bool.or_eq_true, decide_eq_true_eq]
      exact le_total a.timestamp b.timestamp)
    segs
  exact h.imp (fun hab => by simpa using hab)

/-- Segments derived from a detection frame carry the frame's
timestamp. -/
lemma segment_for_detection_timestamp (gen : Video.Event → Option Advanced.BuyCommentary)
    (t : ℚ) (det : Advanced.MockDetection) (s : Advanced.AdvSegment)
    (h : Advanced.segment_for_detection gen t det = some s) : s.timestamp = t := by
  simp only [Advanced.segment_for_detection] at h
  by_cases h1 : containsSub det.mock_ocr_text (cs "REQUESTING") = true
  · rw [if_pos h1] at h
    rcases Option.map_eq_some'.mp h with ⟨c, -, hc⟩
    rw [← hc]
  · rw [if_neg h1] at h
    by_cases h2 : containsSub det.mock_ocr_text (cs "OWNED") = true
    · rw [if_pos h2] at h
      rcases Option.map_eq_some'.mp h with ⟨c, -, hc⟩
      rw [← hc]
    · rw [if_neg h2] at h
      cases h

/-- Appending the segments of successive frames preserves timestamp
order when the frames themselves are in timestamp order. -/
lemma advance_frames_sorted (gen : Video.Event → Option Advanced.BuyCommentary) :
    ∀ (dets : List Advanced.DetectionFrame) (acc : List Advanced.AdvSegment),
      List.Pairwise (fun x y : Advanced.DetectionFrame => x.timestamp ≤ y.timestamp) dets →
      List.Pairwise (fun a b : Advanced.AdvSegment => a.timestamp ≤ b.timestamp) acc →
      (∀ a ∈ acc, ∀ df ∈ dets, a.timestamp ≤ df.timestamp) →
      List.Pairwise (fun a b : Advanced.AdvSegment => a.timestamp ≤ b.timestamp)
        (dets.foldl (Advanced.advance_frame gen) acc) := by
  intro dets
  induction dets with
  | nil => intro acc _ hacc _; simpa using hacc
  | cons df rest ih =>
    intro acc hdets hacc hcross
    rw [List.foldl_cons]
    have hgroup :
        ∀ s ∈ df.detections.filterMap (Advanced.segment_for_detection gen df.timestamp),
          s.timestamp = df.timestamp := by
      intro s hs
      rcases List.mem_filterMap.mp hs with ⟨d, -, hd⟩
      exact segment_for_detection_timestamp gen df.timestamp d s hd
    have hpair := List.pairwise_cons.mp hdets
    apply ih
    · exact hpair.2
    · unfold Advanced.advance_frame
      rw [List.pairwise_append]
      refine ⟨hacc, ?_, ?_⟩
      · refine List.pairwise_of_forall_mem_list ?_
        intro a ha b hb
        rw [hgroup a ha, hgroup b hb]
      · intro a ha b hb
        rw [hgroup b hb]
        exact hcross a ha df (List.mem_cons_self _ _)
    · intro a ha df2 hdf2
      unfold Advanced.advance_frame at ha
      rcases List.mem_append.mp ha with h | h
      · exact hcross a h df2 (List.mem_cons_of_mem _ hdf2)
      · rw [hgroup a h]
        exact hpair.1 df2 hdf2

/-- C5.  Persisted segment lists are sorted by timestamp: the enhanced
pipeline sorts before synthesising and saving, so its persisted list is
always pairwise ordered; and the advanced pipeline's
`commentary_segments` (persisted unchanged by `save_final_results`) are
pairwise ordered whenever the detection frames are processed in
timestamp order, as the extraction loop produces them. -/
theorem C5_persisted_sorted :
    (∀ (synth : Enhanced.Segment → Option String) (segs : List Enhanced.Segment),
        List.Pairwise (fun a b : Enhanced.Segment => a.timestamp ≤ b.timestamp)
          (Enhanced.generate_voice_commentary synth segs)) ∧
    (∀ (gen : Video.Event → Option Advanced.BuyCommentary)
        (dets : List Advanced.DetectionFrame),
        List.Pairwise (fun x y : Advanced.DetectionFrame => x.timestamp ≤ y.timestamp) dets →
        List.Pairwise (fun a b : Advanced.AdvSegment => a.timestamp ≤ b.timestamp)
          (Advanced.use_existing_commentary_system gen dets)) := by
  constructor
  · intro synth segs
    unfold Enhanced.generate_voice_commentary
    rw [List.pairwise_map]
    refine (sort_commentary_segments_sorted segs).imp ?_
    intro a b hab
    cases ha : synth a <;> cases hb : synth b <;> simpa [ha, hb] using hab
  · intro gen dets hdets
    exact advance_frames_sorted gen dets [] hdets (by simp) (by simp)

/-- C5 witness: the advanced clause applied to two detection frames at
`t = 1` and `t = 2` with an always-answering commentator. -/
theorem C5_persisted_sorted_witness :
    List.Pairwise (fun a b : Advanced.AdvSegment => a.timestamp ≤ b.timestamp)
      (Advanced.use_existing_commentary_system buy_gen [frame1, frame2]) :=
  C5_persisted_sorted.2 buy_gen [frame1, frame2] (by decide)

/-- C9.  Per-segment synthesis failure is tolerated: in the voice
generator the output keeps every segment's text and length (the batch
continues past failures) and a failed segment appears with a `none`
audio reference; in the enhanced generator a failed segment likewise
survives unchanged (its `audio_file` never set) and the batch length is
preserved. -/
theorem C9_synthesis_failure_tolerant :
    (∀ (synth : Enhanced.Segment → Option String) (segs : List Enhanced.Segment),
        (Voice.generate_voice_commentary synth segs).map (fun s => s.text) =
          segs.map (fun s => s.text) ∧
        (Voice.generate_voice_commentary synth segs).length = segs.length) ∧
    (∀ (synth : Enhanced.Segment → Option String) (segs : List Enhanced.Segment)
        (s : Enhanced.Segment), s ∈ segs → synth s = none →
        ({ s with audio_file := none } : Enhanced.Segment) ∈
          Voice.generate_voice_commentary synth segs) ∧
    (∀ (synth : Enhanced.Segment → Option String) (segs : List Enhanced.Segment),
        (Enhanced.generate_voice_commentary synth segs).length = segs.length) ∧
    (∀ (synth : Enhanced.Segment → Option String) (segs : List Enhanced.Segment)
        (s : Enhanced.Segment), s ∈ segs → synth s = none →
        s ∈ Enhanced.generate_voice_commentary synth segs) := by
  refine ⟨?_, ?_, ?_, ?_⟩
  · intro synth segs
    constructor
    · unfold Voice.generate_voice_commentary
      rw [List.map_map]
      refine List.map_congr_left ?_
      intro s _
      cases h : synth s <;> simp [h]
    · unfold Voice.generate_voice_commentary
      rw [List.length_map]
  · intro synth segs s hs hnone
    unfold Voice.generate_voice_commentary
    have heq : (fun segment => match synth segment with
        | some path => { segment with audio_file := some path }
        | none => { segment with audio_file := none }) s =
        ({ s with audio_file := none } : Enhanced.Segment) := by
      show (match synth s with
        | some path => { s with audio_file := some path }
        | none => { s with audio_file := none }) =
        ({ s with audio_file := none } : Enhanced.Segment)
      rw [hnone]
    exact heq ▸ List.mem_map_of_mem _ hs
  · intro synth segs
    unfold Enhanced.generate_voice_commentary
    rw [List.length_map]
    unfold Enhanced.sort_commentary_segments
    exact List.length_mergeSort segs
  · intro synth segs s hs hnone
    unfold Enhanced.generate_voice_commentary
    have hmem : s ∈ Enhanced.sort_commentary_segments segs := by
      unfold Enhanced.sort_commentary_segments
      exact List.mem_mergeSort.mpr hs
    have heq : (fun segment => match synth segment with
        | some path => { segment with audio_file := some path }
        | none => segment) s = s := by
      show (match synth s with
        | some path => { s with audio_file := some path }
        | none => s) = s
      rw [hnone]
    exact heq ▸ List.mem_map_of_mem _ hmem

/-- C9 witness: a failing synthesis backend leaves the segment in the
batch with a `none` audio reference. -/
theorem C9_synthesis_failure_tolerant_witness :
    ({ seg5 with audio_file := none } : Enhanced.Segment) ∈
      Voice.generate_voice_commentary synth_none [seg5] :=
  C9_synthesis_failure_tolerant.2.1 synth_none [seg5] seg5 (List.mem_singleton.mpr rfl) rfl
